import Mathlib

/-!
# Verification of the git-lfs `lfsapi` core

A shallow embedding of `lfsapi/lfsapi.go`: the layered environment
accessor (`env` interface and its `testEnv` implementation), proxy-server
resolution (`getProxyServers`), client construction (`NewClient`), the
per-host client cache (`httpClient`), the request dispatcher (`Do`), and
the content-type-gated response decoder (`decodeResponse`).

Go strings are Lean `String`s; the Go `(value, ok)` pair returned by
`env.Get` is a `String × Bool`; `*http.Client` pointer identity is
modelled by a fresh-`Nat` allocator (`nextId`); the mutex-guarded
`map[string]*http.Client` is an association list threaded through the
state.  External collaborators (`ParseNetrc`, `NewEndpointFinder`,
`ProxyFromClient`, `isCertVerificationDisabledForHost`,
`getRootCAsForHost`) are taken as parameters, since their code is not
part of this package.
-/

namespace Lfsapi

/-- The `env` interface of the Go source: typed key lookups.
`get` returns the Go `(string, bool)` pair; `int` and `bool` carry a
caller-supplied default.  (`All()` is never used by this core and is
omitted.) -/
structure Env where
  get : String → String × Bool
  int : String → Int → Int
  bool : String → Bool → Bool

/-- `testEnv.Get`: a Go map lookup; a missing key yields the zero value
`""` together with `false`. -/
def testEnvGet (m : List (String × String)) (key : String) : String × Bool :=
  match m.lookup key with
  | some v => (v, true)
  | none => ("", false)

/-- Go `strings.HasPrefix(s, pre)`, expressed on the character lists of
the two strings. -/
def strStartsWith (s pre : String) : Bool :=
  pre.data.isPrefixOf s.data

/-- Go `strings.ToLower`, restricted to ASCII letters (the only
characters the callers in this package compare against). -/
def strToLower (s : String) : String :=
  ⟨s.data.map Char.toLower⟩

/-- Go `strconv.Atoi`: an optional sign followed by at least one decimal
digit, rejected outside the 64-bit signed range (Go `int` on a 64-bit
platform); any other shape is an error, modelled as `none`. -/
def atoi (s : String) : Option Int :=
  let signed : Int × String :=
    if strStartsWith s "-" then (-1, ⟨s.data.drop 1⟩)
    else if strStartsWith s "+" then (1, ⟨s.data.drop 1⟩)
    else (1, s)
  let digits := signed.2
  if digits.length = 0 then none
  else if digits.data.all Char.isDigit then
    let n : Nat := digits.data.foldl (fun acc c => acc * 10 + (c.toNat - 48)) 0
    let v : Int := signed.1 * (n : Int)
    if v < -(2 ^ 63) ∨ 2 ^ 63 - 1 < v then none else some v
  else none

/-- `testEnv.Int`: empty/absent value yields the default, as does any
value `strconv.Atoi` rejects. -/
def testEnvInt (m : List (String × String)) (key : String) (d : Int) : Int :=
  let s := (testEnvGet m key).1
  if s.length = 0 then d
  else
    match atoi s with
    | some i => i
    | none => d

/-- `testEnv.Bool`: empty/absent value yields the default; otherwise the
lowercased value is matched against ten literals, and every other
non-empty value maps to `false` (the source's `default:` branch). -/
def testEnvBool (m : List (String × String)) (key : String) (d : Bool) : Bool :=
  let s := (testEnvGet m key).1
  if s.length = 0 then d
  else
    match strToLower s with
    | "true" | "1" | "on" | "yes" | "t" => true
    | "false" | "0" | "off" | "no" | "f" => false
    | _ => false

/-- The `testEnv` map packaged as an `Env`, as the Go interface sees it. -/
def mkTestEnv (m : List (String × String)) : Env :=
  { get := testEnvGet m, int := testEnvInt m, bool := testEnvBool m }

/-- `getProxyServers(osEnv, gitEnv)`: returns
`(httpsProxy, httpProxy, noProxy)`.  A direct sequential translation of
the source: config `http.proxy` seeds the HTTP proxy, and seeds the HTTPS
proxy only under an `https://` prefix; each later candidate is consulted
only while the accumulated value is still empty. -/
def getProxyServers (osEnv gitEnv : Env) : String × String × String :=
  let httpProxy0 := (gitEnv.get "http.proxy").1
  let httpsProxy0 := if strStartsWith httpProxy0 "https://" then httpProxy0 else ""
  let httpsProxy1 :=
    if httpsProxy0.length = 0 then (osEnv.get "HTTPS_PROXY").1 else httpsProxy0
  let httpsProxy2 :=
    if httpsProxy1.length = 0 then (osEnv.get "https_proxy").1 else httpsProxy1
  let httpProxy1 :=
    if httpProxy0.length = 0 then (osEnv.get "HTTP_PROXY").1 else httpProxy0
  let httpProxy2 :=
    if httpProxy1.length = 0 then (osEnv.get "http_proxy").1 else httpProxy1
  let noProxy0 := (osEnv.get "NO_PROXY").1
  let noProxy1 := if noProxy0.length = 0 then (osEnv.get "no_proxy").1 else noProxy0
  (httpsProxy2, httpProxy2, noProxy1)

/-- The media-type regular expressions `lfsMediaTypeRE` / `jsonMediaTypeRE`
(`\Aapplication/vnd\.git\-lfs\+json(;|\z)` and `\Aapplication/json(;|\z)`):
anchored at the start, the base media type must be followed either by the
end of the string or by a `;`. -/
def matchesMediaTypeRE (base s : String) : Bool :=
  s = base || strStartsWith s (base ++ ";")

/-- The request data `decodeResponse` reads: `res.Request.Method` and
`res.Request.URL`. -/
structure HttpRequest where
  method : String
  url : String
  deriving DecidableEq, Repr

/-- The slice of an `*http.Response` that `decodeResponse` consumes: the
`Content-Type` header value, the originating request, and the body.  The
body is modelled by the outcome of JSON-decoding it into the target type
`α` (`.ok` a value, or `.error` the parse error's message). -/
structure HttpResponse (α : Type) where
  contentType : String
  request : HttpRequest
  bodyParse : Except String α

/-- The error value built by
`errors.Wrapf(err, "Unable to parse HTTP response for %s %s", ...)`:
a context message wrapping the underlying cause. -/
structure WrappedError where
  message : String
  cause : String
  deriving DecidableEq, Repr

/-- The observable outcome of a `decodeResponse` call: the target
structure afterwards, how many times the body was closed, whether JSON
deserialization was attempted, and the returned error. -/
structure DecodeOutcome (α : Type) where
  obj : α
  bodyCloses : Nat
  attempted : Bool
  err : Option WrappedError

/-- `decodeResponse(res, obj)`: a no-op unless the content type matches
one of the two media-type patterns; on a match it decodes the body
(closing it in either outcome) and wraps a parse failure with the
request's method and URL.  (On a parse failure the Go decoder may have
partially written `obj`; no claim concerns that, and the model keeps the
caller's value.) -/
def decodeResponse {α : Type} (res : HttpResponse α) (obj : α) : DecodeOutcome α :=
  let ctype := res.contentType
  if !(matchesMediaTypeRE "application/vnd.git-lfs+json" ctype
      || matchesMediaTypeRE "application/json" ctype) then
    { obj := obj, bodyCloses := 0, attempted := false, err := none }
  else
    match res.bodyParse with
    | .ok v =>
      { obj := v, bodyCloses := 1, attempted := true, err := none }
    | .error e =>
      { obj := obj, bodyCloses := 1, attempted := true,
        err := some
          { message := "Unable to parse HTTP response for "
              ++ res.request.method ++ " " ++ res.request.url,
            cause := e } }

/-- `(c *Client) Do(req)`: the underlying `httpClient(req.Host).Do(req)`
outcome is the pair `transport` (its response and its error); `handle` is
`c.handleResponse`, whose own code lives outside this package.  On a
transport error the pair is returned as-is; otherwise the response is
returned together with the post-processing error. -/
def Do {ρ ε : Type} (handle : ρ → Option ε) (transport : ρ × Option ε) : ρ × Option ε :=
  match transport with
  | (res, some err) => (res, some err)
  | (res, none) => (res, handle res)

/-- A constructed `http.Transport`, with the fields `httpClient` sets:
dialer timeout and keepalive (seconds), TLS handshake timeout (seconds),
`MaxIdleConnsPerHost`, and the TLS policy (`InsecureSkipVerify`, or the
root-CA set where `none` means the system default).  The `Proxy` field
delegates to the external `ProxyFromClient` and is not modelled. -/
structure Transport where
  dialTimeoutSec : Int
  keepAliveSec : Int
  tlsHandshakeTimeoutSec : Int
  maxIdleConnsPerHost : Int
  insecureSkipVerify : Bool
  rootCAs : Option Nat
  deriving DecidableEq, Repr

/-- An `*http.Client` as stored in the host cache: its transport plus an
allocation id standing for the pointer's identity (two clients are the
same pointer exactly when their ids are equal). -/
structure HttpClient where
  id : Nat
  transport : Transport
  deriving DecidableEq, Repr

/-- The `Client` struct: the configuration snapshot stored by
`NewClient`, the `SkipPrompt` flag of the credential helper, and the
mutex-guarded `hostClients map[string]*http.Client` (an association
list).  `nextId` is the model's pointer allocator.  The collaborator
fields (`Endpoints`, `Netrc`, `gitEnv`, `osEnv`) play no part in the
claims and are not carried. -/
structure Client where
  dialTimeout : Int
  keepaliveTimeout : Int
  tlsTimeout : Int
  concurrentTransfers : Int
  httpsProxy : String
  httpProxy : String
  noProxy : String
  skipSSLVerify : Bool
  credSkipPrompt : Bool
  hostClients : List (String × HttpClient)
  nextId : Nat
  deriving DecidableEq, Repr

/-- `NewClient(osEnv, gitEnv)`: parses netrc (the external `ParseNetrc`
is a parameter; its failure is the construction error), resolves the
proxies, and stores the configuration snapshot — the integer keys default
to 0 here, and `SkipSSLVerify` is
`!gitEnv.Bool("http.sslverify", true) || osEnv.Bool("GIT_SSL_NO_VERIFY", false)`.
The cache starts empty.  (The source substitutes an empty `testEnv` for a
nil environment before these lookups; the model takes the environments
already non-nil.) -/
def NewClient (parseNetrc : Env → Except String Unit) (osEnv gitEnv : Env) :
    Except String Client :=
  match parseNetrc osEnv with
  | .error e => .error e
  | .ok _ =>
    let proxies := getProxyServers osEnv gitEnv
    .ok
      { dialTimeout := gitEnv.int "lfs.dialtimeout" 0
        keepaliveTimeout := gitEnv.int "lfs.keepalive" 0
        tlsTimeout := gitEnv.int "lfs.tlstimeout" 0
        concurrentTransfers := gitEnv.int "lfs.concurrenttransfers" 0
        httpsProxy := proxies.1
        httpProxy := proxies.2.1
        noProxy := proxies.2.2
        skipSSLVerify :=
          !(gitEnv.bool "http.sslverify" true) || osEnv.bool "GIT_SSL_NO_VERIFY" false
        credSkipPrompt := !(osEnv.bool "GIT_TERMINAL_PROMPT" true)
        hostClients := []
        nextId := 0 }

/-- `(c *Client) httpClient(host)`: under the client mutex, a cache hit
returns the stored client unchanged; a miss resolves each timeout /
concurrency field ≤ 0 to its hardcoded default, builds the transport,
applies the per-host TLS policy (`certDisabled` and `getRoots` are the
external `isCertVerificationDisabledForHost` / `getRootCAsForHost`),
stores the new client under `host`, and returns it. -/
def httpClient (certDisabled : String → Bool) (getRoots : String → Option Nat)
    (c : Client) (host : String) : HttpClient × Client :=
  match c.hostClients.lookup host with
  | some client => (client, c)
  | none =>
    let concurrentTransfers :=
      if c.concurrentTransfers < 1 then 3 else c.concurrentTransfers
    let dialtime := if c.dialTimeout < 1 then 30 else c.dialTimeout
    let keepalivetime := if c.keepaliveTimeout < 1 then 1800 else c.keepaliveTimeout
    let tlstime := if c.tlsTimeout < 1 then 30 else c.tlsTimeout
    let tr : Transport :=
      { dialTimeoutSec := dialtime
        keepAliveSec := keepalivetime
        tlsHandshakeTimeoutSec := tlstime
        maxIdleConnsPerHost := concurrentTransfers
        insecureSkipVerify := certDisabled host
        rootCAs := if certDisabled host then none else getRoots host }
    let client : HttpClient := { id := c.nextId, transport := tr }
    (client,
      { c with hostClients := (host, client) :: c.hostClients, nextId := c.nextId + 1 })

/-- A sequence of `httpClient` lookups on one `Client`: returns the list
of returned clients and the final state. -/
def runLookups (certDisabled : String → Bool) (getRoots : String → Option Nat)
    (c : Client) : List String → List HttpClient × Client
  | [] => ([], c)
  | host :: rest =>
    let step := httpClient certDisabled getRoots c host
    let tail := runLookups certDisabled getRoots step.2 rest
    (step.1 :: tail.1, tail.2)

/-- A string's `length` is zero exactly when it is the empty string. -/
theorem string_length_eq_zero_iff (s : String) : s.length = 0 ↔ s = "" := by
  constructor
  · intro h
    cases s with
    | mk data =>
      cases data with
      | nil => rfl
      | cons a l => simp [String.length] at h
  · intro h
    subst h
    rfl

/-- A string carrying the scheme `https://` is non-empty. -/
theorem startsWith_https_ne_empty (s : String)
    (h : strStartsWith s "https://" = true) : ¬ s.length = 0 := by
  intro hl
  rw [string_length_eq_zero_iff] at hl
  subst hl
  simp [strStartsWith, List.isPrefixOf] at h

/-- C2: the resolved HTTPS proxy is the config `http.proxy` value
whenever that value begins with `https://`; only when that candidate is
empty is `HTTPS_PROXY` consulted, and only when that is also empty is
`https_proxy` consulted (first non-empty wins).  In particular, config
`http.proxy = "https://proxy.example"` beats process
`HTTPS_PROXY = "https://other"`. -/
theorem https_proxy_precedence (osEnv gitEnv : Env) :
    ((getProxyServers osEnv gitEnv).1 =
      if strStartsWith (gitEnv.get "http.proxy").1 "https://" then
        (gitEnv.get "http.proxy").1
      else if (osEnv.get "HTTPS_PROXY").1 ≠ "" then (osEnv.get "HTTPS_PROXY").1
      else (osEnv.get "https_proxy").1) ∧
    (getProxyServers (mkTestEnv [("HTTPS_PROXY", "https://other")])
        (mkTestEnv [("http.proxy", "https://proxy.example")])).1
      = "https://proxy.example" := by
  refine ⟨?_, by decide⟩
  by_cases h : strStartsWith (gitEnv.get "http.proxy").1 "https://"
  · have hne := startsWith_https_ne_empty _ h
    simp [getProxyServers, h, hne]
  · simp only [getProxyServers, h, if_false, Bool.false_eq_true]
    by_cases h2 : (osEnv.get "HTTPS_PROXY").1 = ""
    · simp [h2, string_length_eq_zero_iff]
    · simp [h2, string_length_eq_zero_iff]

/-- C3 fails on the code: for the same process environment (here empty),
a config environment that defines `http.proxy = "http://x"` changes the
resolved generic HTTP proxy relative to an empty config environment, so
the config-level source does influence it. -/
theorem http_proxy_config_dependence_cex :
    (getProxyServers (mkTestEnv []) (mkTestEnv [])).2.1
      ≠ (getProxyServers (mkTestEnv [])
          (mkTestEnv [("http.proxy", "http://x")])).2.1 := by
  decide

/-- C3 amended: the resolved NO_PROXY depends only on the process-level
environment, and the config influences the HTTP (and HTTPS) proxy only
through the key `http.proxy`: two config environments agreeing on that
key, paired with the same process environment, yield identical results
from `getProxyServers`. -/
theorem proxy_config_influence (osEnv git1 git2 : Env) :
    (getProxyServers osEnv git1).2.2 = (getProxyServers osEnv git2).2.2 ∧
    ((git1.get "http.proxy").1 = (git2.get "http.proxy").1 →
      getProxyServers osEnv git1 = getProxyServers osEnv git2) := by
  constructor
  · simp [getProxyServers]
  · intro h
    simp [getProxyServers, h]

/-- Witness for `proxy_config_influence` at concrete environments. -/
theorem proxy_config_influence_witness :
    getProxyServers (mkTestEnv [("NO_PROXY", "n")])
        (mkTestEnv [("http.proxy", "http://p")])
      = getProxyServers (mkTestEnv [("NO_PROXY", "n")])
        (mkTestEnv [("http.proxy", "http://p"), ("other", "z")]) :=
  (proxy_config_influence (mkTestEnv [("NO_PROXY", "n")])
    (mkTestEnv [("http.proxy", "http://p")])
    (mkTestEnv [("http.proxy", "http://p"), ("other", "z")])).2 (by decide)

/-- C10: when the config `http.proxy` value begins with `https://`, that
same string is returned as both the HTTPS proxy and the HTTP proxy, for
every process environment — so `HTTPS_PROXY`, `https_proxy`,
`HTTP_PROXY` and `http_proxy` are all ignored. -/
theorem config_https_shadows_both (osEnv gitEnv : Env)
    (h : strStartsWith (gitEnv.get "http.proxy").1 "https://" = true) :
    (getProxyServers osEnv gitEnv).1 = (gitEnv.get "http.proxy").1 ∧
    (getProxyServers osEnv gitEnv).2.1 = (gitEnv.get "http.proxy").1 := by
  have hne := startsWith_https_ne_empty _ h
  constructor <;> simp [getProxyServers, h, hne]

/-- Witness for `config_https_shadows_both`: a process environment
setting all four proxy variables is ignored. -/
theorem config_https_shadows_both_witness :
    (getProxyServers
        (mkTestEnv [("HTTPS_PROXY", "https://a"), ("https_proxy", "https://b"),
          ("HTTP_PROXY", "http://c"), ("http_proxy", "http://d")])
        (mkTestEnv [("http.proxy", "https://cfg")])).1 = "https://cfg" ∧
    (getProxyServers
        (mkTestEnv [("HTTPS_PROXY", "https://a"), ("https_proxy", "https://b"),
          ("HTTP_PROXY", "http://c"), ("http_proxy", "http://d")])
        (mkTestEnv [("http.proxy", "https://cfg")])).2.1 = "https://cfg" :=
  config_https_shadows_both
    (mkTestEnv [("HTTPS_PROXY", "https://a"), ("https_proxy", "https://b"),
      ("HTTP_PROXY", "http://c"), ("http_proxy", "http://d")])
    (mkTestEnv [("http.proxy", "https://cfg")]) (by decide)

/-- C4: a client built by `NewClient` has
`SkipSSLVerify = NOT(gitEnv.Bool "http.sslverify" true) OR
osEnv.Bool "GIT_SSL_NO_VERIFY" false`: either source alone can make
verification skipped, and it is skipped only if at least one says so. -/
theorem newClient_skipSSLVerify (pn : Env → Except String Unit)
    (osEnv gitEnv : Env) (c : Client)
    (h : NewClient pn osEnv gitEnv = .ok c) :
    c.skipSSLVerify
      = (!(gitEnv.bool "http.sslverify" true)
          || osEnv.bool "GIT_SSL_NO_VERIFY" false) ∧
    (c.skipSSLVerify = true ↔
      (gitEnv.bool "http.sslverify" true = false
        ∨ osEnv.bool "GIT_SSL_NO_VERIFY" false = true)) := by
  unfold NewClient at h
  cases hpn : pn osEnv with
  | error e =>
    rw [hpn] at h
    cases h
  | ok u =>
    rw [hpn] at h
    injection h with h
    subst h
    refine ⟨rfl, ?_⟩
    simp

/-- Witness for `newClient_skipSSLVerify`: config `http.sslverify = "off"`
alone turns verification off. -/
theorem newClient_skipSSLVerify_witness :
    (⟨0, 0, 0, 0, "", "", "", true, false, [], 0⟩ : Client).skipSSLVerify
      = (!((mkTestEnv [("http.sslverify", "off")]).bool "http.sslverify" true)
          || (mkTestEnv []).bool "GIT_SSL_NO_VERIFY" false) ∧
    ((⟨0, 0, 0, 0, "", "", "", true, false, [], 0⟩ : Client).skipSSLVerify = true ↔
      ((mkTestEnv [("http.sslverify", "off")]).bool "http.sslverify" true = false
        ∨ (mkTestEnv []).bool "GIT_SSL_NO_VERIFY" false = true)) :=
  newClient_skipSSLVerify (fun _ => Except.ok ()) (mkTestEnv [])
    (mkTestEnv [("http.sslverify", "off")]) _ rfl

/-- C5: `testEnv.Bool` returns the default when the key is absent or the
stored value is empty; `true` when the lowercased value is one of
`{"true","1","on","yes","t"}`; `false` when it is one of
`{"false","0","off","no","f"}`; and `false` (never the default) for every
other non-empty value. -/
theorem testEnvBool_spec (m : List (String × String)) (k : String) (d : Bool) :
    (m.lookup k = none → testEnvBool m k d = d) ∧
    ((testEnvGet m k).1 = "" → testEnvBool m k d = d) ∧
    (strToLower (testEnvGet m k).1 ∈ ["true", "1", "on", "yes", "t"] →
      testEnvBool m k d = true) ∧
    (strToLower (testEnvGet m k).1 ∈ ["false", "0", "off", "no", "f"] →
      testEnvBool m k d = false) ∧
    ((testEnvGet m k).1 ≠ "" →
      strToLower (testEnvGet m k).1 ∉ ["true", "1", "on", "yes", "t"] →
      strToLower (testEnvGet m k).1 ∉ ["false", "0", "off", "no", "f"] →
      testEnvBool m k d = false) := by
  have habs : m.lookup k = none → (testEnvGet m k).1 = "" := by
    intro h
    simp [testEnvGet, h]
  have hlow_ne : ∀ L : List String, "" ∉ L →
      strToLower (testEnvGet m k).1 ∈ L → (testEnvGet m k).1 ≠ "" := by
    intro L hL hmem heq
    rw [heq] at hmem
    exact hL (by simpa [strToLower] using hmem)
  have hempty : (testEnvGet m k).1 = "" → testEnvBool m k d = d := by
    intro h
    simp [testEnvBool, h]
  refine ⟨fun h => hempty (habs h), hempty, ?_, ?_, ?_⟩
  · intro hmem
    have hne := hlow_ne _ (by decide) hmem
    have hlen : ¬ (testEnvGet m k).1.length = 0 := by
      rw [string_length_eq_zero_iff]
      exact hne
    rw [testEnvBool]
    simp only [hlen, if_false]
    simp only [List.mem_cons, List.mem_singleton, List.not_mem_nil, or_false] at hmem
    rcases hmem with h | h | h | h | h <;> (rw [h]; decide)
  · intro hmem
    have hne := hlow_ne _ (by decide) hmem
    have hlen : ¬ (testEnvGet m k).1.length = 0 := by
      rw [string_length_eq_zero_iff]
      exact hne
    rw [testEnvBool]
    simp only [hlen, if_false]
    simp only [List.mem_cons, List.mem_singleton, List.not_mem_nil, or_false] at hmem
    rcases hmem with h | h | h | h | h <;> (rw [h]; decide)
  · intro hne h1 h2
    have hlen : ¬ (testEnvGet m k).1.length = 0 := by
      rw [string_length_eq_zero_iff]
      exact hne
    rw [testEnvBool]
    simp only [hlen, if_false]
    split
    all_goals first
      | rfl
      | (exfalso; simp_all)

/-- Witness for `testEnvBool_spec`: `Bool("x", true)` with stored
`"bogus"` returns `false`, not the default. -/
theorem testEnvBool_spec_witness :
    testEnvBool [("x", "bogus")] "x" true = false :=
  (testEnvBool_spec [("x", "bogus")] "x" true).2.2.2.2
    (by decide) (by decide) (by decide)

/-- C7: when the underlying transport call fails, `Do` returns the
response and error verbatim, independent of (and without consulting) the
post-processing step; when it succeeds, `Do` returns the raw response
together with whatever error post-processing yields, so a decode failure
never discards the response. -/
theorem do_error_propagation {ρ ε : Type} (t : ρ × Option ε) :
    (∀ e, t.2 = some e → ∀ h1 h2 : ρ → Option ε,
      Do h1 t = (t.1, some e) ∧ Do h1 t = Do h2 t) ∧
    (t.2 = none → ∀ h : ρ → Option ε, Do h t = (t.1, h t.1)) := by
  obtain ⟨r, o⟩ := t
  constructor
  · rintro e rfl h1 h2
    exact ⟨rfl, rfl⟩
  · rintro rfl h
    rfl

/-- Witness for `do_error_propagation` at concrete transport outcomes. -/
theorem do_error_propagation_witness :
    (Do (fun _ => none) ((5 : Nat), some "boom") = (5, some "boom") ∧
      Do (fun _ => none) ((5 : Nat), some "boom")
        = Do (fun _ => some "other") ((5 : Nat), some "boom")) ∧
    Do (fun n => some (n + 1)) ((5 : Nat), (none : Option Nat)) = (5, some 6) :=
  ⟨(do_error_propagation ((5 : Nat), some "boom")).1 "boom" rfl
      (fun _ => none) (fun _ => some "other"),
   (do_error_propagation ((5 : Nat), (none : Option Nat))).2 rfl
      (fun n => some (n + 1))⟩

/-- C8: `decodeResponse` attempts decoding exactly when the content type
matches one of the two accepted media-type patterns, and on a non-match
it returns no error and leaves the caller-supplied target untouched. -/
theorem decodeResponse_frame {α : Type} (res : HttpResponse α) (obj : α) :
    ((decodeResponse res obj).attempted
      = (matchesMediaTypeRE "application/vnd.git-lfs+json" res.contentType
          || matchesMediaTypeRE "application/json" res.contentType)) ∧
    ((matchesMediaTypeRE "application/vnd.git-lfs+json" res.contentType
        || matchesMediaTypeRE "application/json" res.contentType) = false →
      (decodeResponse res obj).err = none ∧ (decodeResponse res obj).obj = obj) := by
  unfold decodeResponse
  by_cases h : (matchesMediaTypeRE "application/vnd.git-lfs+json" res.contentType
      || matchesMediaTypeRE "application/json" res.contentType) = true
  · simp only [h, Bool.not_true, Bool.false_eq_true, if_false]
    cases res.bodyParse <;> simp [h]
  · simp only [Bool.not_eq_true] at h
    simp [h]

/-- Witness for `decodeResponse_frame`: a `text/plain` response is left
undecoded, error-free, target untouched. -/
theorem decodeResponse_frame_witness :
    (decodeResponse
        (⟨"text/plain", ⟨"GET", "http://example.com/a"⟩, Except.error "junk"⟩ :
          HttpResponse Bool) false).err = none ∧
    (decodeResponse
        (⟨"text/plain", ⟨"GET", "http://example.com/a"⟩, Except.error "junk"⟩ :
          HttpResponse Bool) false).obj = false :=
  (decodeResponse_frame
      (⟨"text/plain", ⟨"GET", "http://example.com/a"⟩, Except.error "junk"⟩ :
        HttpResponse Bool) false).2 (by decide)

/-- C9: on a content-type match `decodeResponse` closes the body exactly
once whether or not deserialization succeeds (and does not close it on a
non-match), and a deserialization failure is reported as an error naming
the request's method and URL and carrying the underlying parse error as
its cause. -/
theorem decodeResponse_close_and_error {α : Type} (res : HttpResponse α) (obj : α) :
    ((matchesMediaTypeRE "application/vnd.git-lfs+json" res.contentType
        || matchesMediaTypeRE "application/json" res.contentType) = true →
      (decodeResponse res obj).bodyCloses = 1) ∧
    ((matchesMediaTypeRE "application/vnd.git-lfs+json" res.contentType
        || matchesMediaTypeRE "application/json" res.contentType) = false →
      (decodeResponse res obj).bodyCloses = 0) ∧
    (∀ e, res.bodyParse = .error e →
      (matchesMediaTypeRE "application/vnd.git-lfs+json" res.contentType
        || matchesMediaTypeRE "application/json" res.contentType) = true →
      (decodeResponse res obj).err = some
        { message := "Unable to parse HTTP response for "
            ++ res.request.method ++ " " ++ res.request.url,
          cause := e }) := by
  refine ⟨?_, ?_, ?_⟩
  · intro h
    unfold decodeResponse
    simp only [h, Bool.not_true, Bool.false_eq_true, if_false]
    cases res.bodyParse <;> rfl
  · intro h
    unfold decodeResponse
    simp [h]
  · intro e he h
    unfold decodeResponse
    simp only [h, Bool.not_true, Bool.false_eq_true, if_false, he]

/-- Witness for `decodeResponse_close_and_error`: a git-lfs media-type
response with a malformed body is closed once and yields a wrapped error
naming `GET http://example.com/obj`. -/
theorem decodeResponse_close_and_error_witness :
    (decodeResponse
        (⟨"application/vnd.git-lfs+json", ⟨"GET", "http://example.com/obj"⟩,
          Except.error "unexpected end of JSON input"⟩ : HttpResponse Bool)
        false).bodyCloses = 1 ∧
    (decodeResponse
        (⟨"application/vnd.git-lfs+json", ⟨"GET", "http://example.com/obj"⟩,
          Except.error "unexpected end of JSON input"⟩ : HttpResponse Bool)
        false).err = some
      { message := "Unable to parse HTTP response for GET http://example.com/obj",
        cause := "unexpected end of JSON input" } :=
  ⟨(decodeResponse_close_and_error
      (⟨"application/vnd.git-lfs+json", ⟨"GET", "http://example.com/obj"⟩,
        Except.error "unexpected end of JSON input"⟩ : HttpResponse Bool)
      false).1 (by decide),
   by
    have h := (decodeResponse_close_and_error
      (⟨"application/vnd.git-lfs+json", ⟨"GET", "http://example.com/obj"⟩,
        Except.error "unexpected end of JSON input"⟩ : HttpResponse Bool)
      false).2.2 "unexpected end of JSON input" rfl (by decide)
    simpa using h⟩

/-- C6: on a cache miss, `httpClient` replaces every timeout/concurrency
field that is ≤ 0 with its hardcoded default — dial 30s, keepalive 1800s,
TLS handshake 30s, max idle connections per host 3 — while `NewClient`
stores the configured integers unchanged (with default 0 for unset keys),
so the replacement happens at client construction, not at configuration
load. -/
theorem construction_time_defaults :
    (∀ (certDisabled : String → Bool) (getRoots : String → Option Nat)
        (c : Client) (host : String),
      c.hostClients.lookup host = none →
      ((c.dialTimeout ≤ 0 →
          ((httpClient certDisabled getRoots c host).1).transport.dialTimeoutSec
            = 30) ∧
        (c.keepaliveTimeout ≤ 0 →
          ((httpClient certDisabled getRoots c host).1).transport.keepAliveSec
            = 1800) ∧
        (c.tlsTimeout ≤ 0 →
          ((httpClient certDisabled getRoots c host).1).transport.tlsHandshakeTimeoutSec
            = 30) ∧
        (c.concurrentTransfers ≤ 0 →
          ((httpClient certDisabled getRoots c host).1).transport.maxIdleConnsPerHost
            = 3))) ∧
    (∀ (pn : Env → Except String Unit) (osEnv gitEnv : Env) (c : Client),
      NewClient pn osEnv gitEnv = .ok c →
      c.dialTimeout = gitEnv.int "lfs.dialtimeout" 0 ∧
      c.keepaliveTimeout = gitEnv.int "lfs.keepalive" 0 ∧
      c.tlsTimeout = gitEnv.int "lfs.tlstimeout" 0 ∧
      c.concurrentTransfers = gitEnv.int "lfs.concurrenttransfers" 0) := by
  constructor
  · intro certDisabled getRoots c host hmiss
    simp only [httpClient, hmiss]
    refine ⟨?_, ?_, ?_, ?_⟩ <;> intro h <;> split <;> omega
  · intro pn osEnv gitEnv c h
    unfold NewClient at h
    cases hpn : pn osEnv with
    | error e =>
      rw [hpn] at h
      cases h
    | ok u =>
      rw [hpn] at h
      injection h with h
      subst h
      exact ⟨rfl, rfl, rfl, rfl⟩

/-- Witness for `construction_time_defaults`: a client whose stored
settings are all 0 (as `NewClient` over empty environments produces)
gets the four defaults on first construction. -/
theorem construction_time_defaults_witness :
    ((httpClient (fun _ => false) (fun _ => none)
        ⟨0, 0, 0, 0, "", "", "", false, false, [], 0⟩
        "example.com").1).transport.dialTimeoutSec = 30 ∧
    ((httpClient (fun _ => false) (fun _ => none)
        ⟨0, 0, 0, 0, "", "", "", false, false, [], 0⟩
        "example.com").1).transport.keepAliveSec = 1800 ∧
    ((httpClient (fun _ => false) (fun _ => none)
        ⟨0, 0, 0, 0, "", "", "", false, false, [], 0⟩
        "example.com").1).transport.tlsHandshakeTimeoutSec = 30 ∧
    ((httpClient (fun _ => false) (fun _ => none)
        ⟨0, 0, 0, 0, "", "", "", false, false, [], 0⟩
        "example.com").1).transport.maxIdleConnsPerHost = 3 ∧
    (⟨0, 0, 0, 0, "", "", "", false, false, [], 0⟩ : Client).dialTimeout
      = (mkTestEnv []).int "lfs.dialtimeout" 0 := by
  have h1 := construction_time_defaults.1 (fun _ => false) (fun _ => none)
    ⟨0, 0, 0, 0, "", "", "", false, false, [], 0⟩ "example.com" rfl
  have h2 := construction_time_defaults.2 (fun _ => Except.ok ())
    (mkTestEnv []) (mkTestEnv [])
    ⟨0, 0, 0, 0, "", "", "", false, false, [], 0⟩ rfl
  exact ⟨h1.1 (by decide), h1.2.1 (by decide), h1.2.2.1 (by decide),
    h1.2.2.2 (by decide), h2.1⟩

/-- A successful association-list lookup means the key is among the
mapped-out keys. -/
theorem mem_keys_of_lookup {β : Type} (l : List (String × β)) (a : String)
    (b : β) (h : l.lookup a = some b) : a ∈ l.map Prod.fst := by
  induction l with
  | nil => cases h
  | cons p rest ih =>
    obtain ⟨k, v⟩ := p
    rw [List.lookup] at h
    cases hak : (a == k) with
    | true =>
      simp only [List.map, List.mem_cons]
      exact Or.inl (eq_of_beq hak)
    | false =>
      rw [hak] at h
      simp only [List.map, List.mem_cons]
      exact Or.inr (ih h)

/-- A failed association-list lookup means the key is absent from the
mapped-out keys. -/
theorem not_mem_keys_of_lookup_none {β : Type} (l : List (String × β))
    (a : String) (h : l.lookup a = none) : a ∉ l.map Prod.fst := by
  induction l with
  | nil => simp
  | cons p rest ih =>
    obtain ⟨k, v⟩ := p
    rw [List.lookup] at h
    cases hak : (a == k) with
    | true =>
      rw [hak] at h
      cases h
    | false =>
      rw [hak] at h
      simp only [List.map, List.mem_cons]
      rintro (rfl | hmem)
      · simp at hak
      · exact ih h hmem

/-- After `httpClient`, the queried host is bound to the returned
client. -/
theorem httpClient_binding (certDisabled : String → Bool)
    (getRoots : String → Option Nat) (c : Client) (host : String) :
    ((httpClient certDisabled getRoots c host).2).hostClients.lookup host
      = some (httpClient certDisabled getRoots c host).1 := by
  unfold httpClient
  cases hl : c.hostClients.lookup host with
  | some cl =>
    simpa using hl
  | none =>
    simp [List.lookup]

/-- `httpClient` never disturbs an existing binding. -/
theorem httpClient_preserves (certDisabled : String → Bool)
    (getRoots : String → Option Nat) (c : Client) (host h' : String)
    (cl' : HttpClient) (hb : c.hostClients.lookup h' = some cl') :
    ((httpClient certDisabled getRoots c host).2).hostClients.lookup h'
      = some cl' := by
  unfold httpClient
  cases hl : c.hostClients.lookup host with
  | some cl =>
    simpa using hb
  | none =>
    have hne : h' ≠ host := by
      rintro rfl
      rw [hl] at hb
      cases hb
    have hbeq : (h' == host) = false := by
      simp [hne]
    simpa [List.lookup, hbeq] using hb

/-- `runLookups` never disturbs an existing binding. -/
theorem runLookups_preserves (certDisabled : String → Bool)
    (getRoots : String → Option Nat) (hosts : List String) (c : Client)
    (h' : String) (cl' : HttpClient)
    (hb : c.hostClients.lookup h' = some cl') :
    ((runLookups certDisabled getRoots c hosts).2).hostClients.lookup h'
      = some cl' := by
  induction hosts generalizing c with
  | nil => exact hb
  | cons host rest ih =>
    exact ih _ (httpClient_preserves certDisabled getRoots c host h' cl' hb)

/-- `runLookups` returns one client per request. -/
theorem runLookups_length_out (certDisabled : String → Bool)
    (getRoots : String → Option Nat) (hosts : List String) (c : Client) :
    ((runLookups certDisabled getRoots c hosts).1).length = hosts.length := by
  induction hosts generalizing c with
  | nil => rfl
  | cons host rest ih =>
    simp [runLookups, ih]

/-- In the final state, each requested host is bound to the client that
its lookup returned. -/
theorem runLookups_final_lookup (certDisabled : String → Bool)
    (getRoots : String → Option Nat) (hosts : List String) (c : Client)
    (i : Nat) (hi : i < hosts.length) :
    ((runLookups certDisabled getRoots c hosts).2).hostClients.lookup hosts[i]
      = ((runLookups certDisabled getRoots c hosts).1)[i]? := by
  induction hosts generalizing c i with
  | nil => cases hi
  | cons host rest ih =>
    cases i with
    | zero =>
      simp only [runLookups, List.getElem_cons_zero, List.getElem?_cons_zero]
      exact runLookups_preserves certDisabled getRoots rest _ host _
        (httpClient_binding certDisabled getRoots c host)
    | succ i =>
      have hi' : i < rest.length := Nat.lt_of_succ_lt_succ hi
      simpa only [runLookups, List.getElem_cons_succ, List.getElem?_cons_succ]
        using ih _ _ hi'

/-- The cache keys after `httpClient` are the old keys plus the queried
host (as a set). -/
theorem httpClient_keys (certDisabled : String → Bool)
    (getRoots : String → Option Nat) (c : Client) (host : String) :
    (((httpClient certDisabled getRoots c host).2).hostClients.map
        Prod.fst).toFinset
      = insert host (c.hostClients.map Prod.fst).toFinset := by
  unfold httpClient
  cases hl : c.hostClients.lookup host with
  | some cl =>
    have hmem : host ∈ (c.hostClients.map Prod.fst).toFinset :=
      List.mem_toFinset.mpr (mem_keys_of_lookup _ _ _ hl)
    simp [Finset.insert_eq_self.mpr hmem]
  | none =>
    simp

/-- `httpClient` keeps the cache keys duplicate-free. -/
theorem httpClient_nodup (certDisabled : String → Bool)
    (getRoots : String → Option Nat) (c : Client) (host : String)
    (h : (c.hostClients.map Prod.fst).Nodup) :
    (((httpClient certDisabled getRoots c host).2).hostClients.map
        Prod.fst).Nodup := by
  unfold httpClient
  cases hl : c.hostClients.lookup host with
  | some cl => simpa using h
  | none =>
    simp only [List.map, List.nodup_cons]
    exact ⟨not_mem_keys_of_lookup_none _ _ hl, h⟩

/-- After a lookup sequence, the cache keys are the initial keys united
with the requested hosts. -/
theorem runLookups_keyset (certDisabled : String → Bool)
    (getRoots : String → Option Nat) (hosts : List String) (c : Client) :
    (((runLookups certDisabled getRoots c hosts).2).hostClients.map
        Prod.fst).toFinset
      = (c.hostClients.map Prod.fst).toFinset ∪ hosts.toFinset := by
  induction hosts generalizing c with
  | nil => simp [runLookups]
  | cons host rest ih =>
    simp only [runLookups]
    rw [ih, httpClient_keys]
    simp [Finset.insert_union, Finset.union_insert]

/-- A lookup sequence keeps the cache keys duplicate-free. -/
theorem runLookups_nodup (certDisabled : String → Bool)
    (getRoots : String → Option Nat) (hosts : List String) (c : Client)
    (h : (c.hostClients.map Prod.fst).Nodup) :
    (((runLookups certDisabled getRoots c hosts).2).hostClients.map
        Prod.fst).Nodup := by
  induction hosts generalizing c with
  | nil => exact h
  | cons host rest ih =>
    exact ih _ (httpClient_nodup certDisabled getRoots c host h)

/-- C1: over any sequence of lookups starting from an empty cache,
lookups at positions carrying the same host string return the identical
cached client (pointer identity modelled by the allocation id), and the
final cache holds exactly one constructed client per distinct requested
host. -/
theorem httpClient_cache_unique (certDisabled : String → Bool)
    (getRoots : String → Option Nat) (c0 : Client) (hosts : List String)
    (hempty : c0.hostClients = []) :
    (∀ i j : Nat, hosts[i]? = hosts[j]? →
      ((runLookups certDisabled getRoots c0 hosts).1)[i]?
        = ((runLookups certDisabled getRoots c0 hosts).1)[j]?) ∧
    ((runLookups certDisabled getRoots c0 hosts).2).hostClients.length
      = hosts.toFinset.card := by
  constructor
  · intro i j hij
    by_cases hi : i < hosts.length
    · have hj : j < hosts.length := by
        by_contra hj
        rw [List.getElem?_eq_getElem hi,
          List.getElem?_eq_none (Nat.le_of_not_lt hj)] at hij
        cases hij
      have heq : hosts[i] = hosts[j] := by
        rw [List.getElem?_eq_getElem hi, List.getElem?_eq_getElem hj] at hij
        exact Option.some.inj hij
      rw [← runLookups_final_lookup certDisabled getRoots hosts c0 i hi,
        ← runLookups_final_lookup certDisabled getRoots hosts c0 j hj, heq]
    · have hj : ¬ j < hosts.length := by
        intro hj
        rw [List.getElem?_eq_getElem hj,
          List.getElem?_eq_none (Nat.le_of_not_lt hi)] at hij
        cases hij
      have hlen := runLookups_length_out certDisabled getRoots hosts c0
      rw [List.getElem?_eq_none (by omega), List.getElem?_eq_none (by omega)]
  · have hnodup := runLookups_nodup certDisabled getRoots hosts c0
      (by rw [hempty]; exact List.nodup_nil)
    have hkeys := runLookups_keyset certDisabled getRoots hosts c0
    rw [hempty] at hkeys
    simp only [List.map_nil, List.toFinset_nil, Finset.empty_union] at hkeys
    calc ((runLookups certDisabled getRoots c0 hosts).2).hostClients.length
        = (((runLookups certDisabled getRoots c0 hosts).2).hostClients.map
            Prod.fst).length := (List.length_map _ _).symm
      _ = (((runLookups certDisabled getRoots c0 hosts).2).hostClients.map
            Prod.fst).toFinset.card := (List.toFinset_card_of_nodup hnodup).symm
      _ = hosts.toFinset.card := by rw [hkeys]

/-- Witness for `httpClient_cache_unique`: looking up `a, b, a` from an
empty cache returns the first client again at the third position and
stores two clients. -/
theorem httpClient_cache_unique_witness :
    (((runLookups (fun _ => false) (fun _ => none)
        ⟨0, 0, 0, 0, "", "", "", false, false, [], 0⟩ ["a", "b", "a"]).1)[0]?
      = ((runLookups (fun _ => false) (fun _ => none)
        ⟨0, 0, 0, 0, "", "", "", false, false, [], 0⟩ ["a", "b", "a"]).1)[2]?) ∧
    ((runLookups (fun _ => false) (fun _ => none)
        ⟨0, 0, 0, 0, "", "", "", false, false, [], 0⟩
        ["a", "b", "a"]).2).hostClients.length
      = (["a", "b", "a"] : List String).toFinset.card :=
  ⟨(httpClient_cache_unique (fun _ => false) (fun _ => none)
      ⟨0, 0, 0, 0, "", "", "", false, false, [], 0⟩ ["a", "b", "a"] rfl).1
      0 2 (by decide),
   (httpClient_cache_unique (fun _ => false) (fun _ => none)
      ⟨0, 0, 0, 0, "", "", "", false, false, [], 0⟩ ["a", "b", "a"] rfl).2⟩

end Lfsapi
